import Mathlib

/-!
Verification development for the nora agent core: a shallow embedding of
the agent control loop (src/agent-core/src/agent.ts), the scratchpad store
(scratchpad.ts), the running-summary tracker (running-summary.ts) and the
long-term memory refinement pipeline (memoryer.ts), together with theorems
about the behaviour of these components.

Modelling conventions:
- JavaScript `Map` objects are embedded as association lists that keep the
  JS iteration semantics: `set` on an existing key updates the value in
  place (keeping the original insertion position), otherwise appends; the
  value view enumerates entries in insertion order.
- A parsed JSON argument object is embedded as a record of `Option` fields
  (a field is `none` exactly when the key is absent from the object).  For
  the `done` field of `update_running_summary` the JSON value itself
  matters, because `getFormattedContent` evaluates `summary.done.length`:
  a JSON `null` there makes the render throw a TypeError.  `done` is
  therefore embedded as `DoneVal` (`arr` for a string array, `null` for
  JSON null).  Other non-array JSON values for `done` (numbers, booleans,
  objects) render as the "none" placeholder without throwing and are not
  modelled; strings for `doing`/`next`/`blockers` cover the JSON values
  that the renders distinguish.
- Code that can throw is embedded in `Except String`; external round
  trips (the model call, provider tool calls, the best-effort summarizer)
  are inputs to the embedded functions.
- `Date.now()` is embedded as an explicit clock argument threaded through
  the state.
-/

/-- JS `Map.get`: the binding of the key, if any. -/
def jsGet {β : Type} : List (String × β) → String → Option β
  | [], _ => none
  | p :: m, k => if p.1 = k then some p.2 else jsGet m k

/-- JS `Map.set`: update in place when the key is present (the entry keeps
its insertion position), otherwise append at the end. -/
def jsSet {β : Type} : List (String × β) → String → β → List (String × β)
  | [], k, v => [(k, v)]
  | p :: m, k, v => if p.1 = k then (k, v) :: m else p :: jsSet m k v

/-- JS `Map.delete`: drop the binding of the key. -/
def jsDelete {β : Type} (m : List (String × β)) (k : String) : List (String × β) :=
  m.filter (fun p => decide (p.1 ≠ k))

/-- Scratchpad entry, from scratchpad.ts (`ScratchpadEntry`). -/
structure ScratchpadEntry where
  key : String
  value : String
  timestamp : Nat
deriving DecidableEq

/-- The scratchpad store: `Map<TaskId, Map<Key, Entry>>`. -/
abbrev SStore := List (String × List (String × ScratchpadEntry))

/-- JSON value of the `done` argument of `update_running_summary`.
`arr` is the schema-conforming string array; `null` is JSON null, which
`getFormattedContent` crashes on (`summary.done.length`). -/
inductive DoneVal where
  | arr (l : List String)
  | null
deriving DecidableEq

/-- A parsed JSON argument object, restricted to the fields the built-in
tools read.  A field is `none` exactly when the key is absent. -/
structure JArgs where
  action : Option String := none
  key : Option String := none
  value : Option String := none
  done : Option DoneVal := none
  doing : Option String := none
  next : Option String := none
  blockers : Option String := none
deriving DecidableEq

/-- Task store of one task: `getTaskStore` of scratchpad.ts (the map is
created on demand in the source; reading an absent task yields the empty
map either way). -/
def ScratchpadManager.getTaskStore (st : SStore) (taskId : String) : List (String × ScratchpadEntry) :=
  (jsGet st taskId).getD []

/-- `ScratchpadManager.update`: upsert the key with a fresh timestamp.
The source also logs the re-rendered view; rendering a scratchpad never
throws, so the log call has no observable effect here. -/
def ScratchpadManager.update (taskId k v : String) (now : Nat) (st : SStore) : SStore :=
  jsSet st taskId (jsSet (ScratchpadManager.getTaskStore st taskId) k ⟨k, v, now⟩)

/-- `ScratchpadManager.delete`: drop the key from the task store. -/
def ScratchpadManager.delete (taskId k : String) (st : SStore) : SStore :=
  jsSet st taskId (jsDelete (ScratchpadManager.getTaskStore st taskId) k)

/-- One bulleted line of the rendered scratchpad. -/
def scratchLine (e : ScratchpadEntry) : String :=
  "- " ++ e.key ++ ": \"" ++ e.value ++ "\""

/-- The entries of a task, sorted by timestamp ascending; the JS
`Array.prototype.sort` with comparator `a.timestamp - b.timestamp` is a
stable ascending sort, embedded as the stable `List.mergeSort`. -/
def ScratchpadManager.sortedEntries (taskId : String) (st : SStore) : List ScratchpadEntry :=
  ((ScratchpadManager.getTaskStore st taskId).map (fun p => p.2)).mergeSort
    (fun a b => decide (a.timestamp ≤ b.timestamp))

/-- The rendered bullet lines of one task, in sorted order. -/
def ScratchpadManager.renderLines (taskId : String) (st : SStore) : List String :=
  (ScratchpadManager.sortedEntries taskId st).map scratchLine

/-- `ScratchpadManager.getFormattedContent`: empty string when the task
has no entries, otherwise a fixed header plus the bullet lines. -/
def ScratchpadManager.getFormattedContent (taskId : String) (st : SStore) : String :=
  if (ScratchpadManager.getTaskStore st taskId).isEmpty then ""
  else
    "【全局任务白板 (Scratchpad)】\n(用于存储跨步骤的关键信息、中间结果或变量)\n" ++
      String.intercalate "\n" (ScratchpadManager.renderLines taskId st)

/-- `ScratchpadManager.handleToolCall`: validates the arguments and
dispatches to update or delete; validation failures and unknown actions
throw (embedded as `Except.error`).  A JS falsy key (absent key or the
empty string) is rejected; a `value` key that is absent (or JSON null) is
rejected for `update`. -/
def ScratchpadManager.handleToolCall (taskId : String) (args : JArgs) (now : Nat) (st : SStore) :
    SStore × Except String String :=
  match args.key with
  | none => (st, .error "Key is required for scratchpad operation")
  | some k =>
    if k = "" then (st, .error "Key is required for scratchpad operation")
    else if args.action = some "update" then
      match args.value with
      | none => (st, .error "Value is required for update action")
      | some v =>
        (ScratchpadManager.update taskId k v now st,
         .ok ("Scratchpad updated: [" ++ k ++ "] = \"" ++ v ++ "\""))
    else if args.action = some "delete" then
      (ScratchpadManager.delete taskId k st,
       .ok ("Scratchpad key deleted: [" ++ k ++ "]"))
    else
      (st, .error ("Unknown action: " ++ args.action.getD "undefined"))

/-- Stored running summary, from running-summary.ts (`RunningSummary`).
`done` keeps the JSON value that the update stored (the spread copies the
argument verbatim), hence `DoneVal` rather than a plain list. -/
structure RunningSummary where
  done : DoneVal
  doing : String
  next : String
  blockers : String
  timestamp : Nat
deriving DecidableEq

/-- The running-summary store: `Map<TaskId, RunningSummary>`. -/
abbrev RStore := List (String × RunningSummary)

/-- Rendering of the `done` field:
`summary.done.length > 0 ? summary.done.join(..) : 无`.
On JSON null the property read `summary.done.length` throws. -/
def renderDone : DoneVal → Except String String
  | .arr l => .ok (if 0 < l.length then String.intercalate "; " l else "无")
  | .null => .error "TypeError: Cannot read properties of null (reading length)"

/-- `RunningSummaryManager.getFormattedContent`: empty string when no
summary is stored, otherwise the fixed four-line block.  The `done`
render can throw, which propagates. -/
def RunningSummaryManager.getFormattedContent (taskId : String) (st : RStore) : Except String String :=
  match jsGet st taskId with
  | none => .ok ""
  | some s =>
    match renderDone s.done with
    | .error e => .error e
    | .ok doneStr =>
      .ok ("【任务进度摘要 (Running Summary)】\n- 已完成 (Done): " ++ doneStr ++
        "\n- 进行中 (Doing): " ++ (if s.doing = "" then "无" else s.doing) ++
        "\n- 下一步 (Next): " ++ (if s.next = "" then "无" else s.next) ++
        "\n" ++ (if s.blockers = "" then "" else "- 阻塞点 (Blockers): " ++ s.blockers) ++ "\n")

/-- `RunningSummaryManager.update`: spread-merge of the supplied fields
over the existing summary (or a fresh default), with a fresh timestamp.
The source then logs `getFormattedContent`, whose `done` render can throw
AFTER the store was already mutated; the second component records that
outcome. -/
def RunningSummaryManager.update (taskId : String) (args : JArgs) (now : Nat) (st : RStore) :
    RStore × Except String Unit :=
  let existing := (jsGet st taskId).getD
    { done := .arr [], doing := "", next := "", blockers := "", timestamp := now }
  let merged : RunningSummary :=
    { done := args.done.getD existing.done
      doing := args.doing.getD existing.doing
      next := args.next.getD existing.next
      blockers := args.blockers.getD existing.blockers
      timestamp := now }
  let st2 := jsSet st taskId merged
  (st2, (RunningSummaryManager.getFormattedContent taskId st2).map (fun _ => ()))

/-- `RunningSummaryManager.handleToolCall`: performs the update with the
raw arguments and returns the fixed success string; an exception from the
render inside `update` propagates (the store mutation persists). -/
def RunningSummaryManager.handleToolCall (taskId : String) (args : JArgs) (now : Nat) (st : RStore) :
    RStore × Except String String :=
  let r := RunningSummaryManager.update taskId args now st
  (r.1, r.2.map (fun _ => "Running Summary updated successfully."))

/-- A long-term memory summary object as `Memoryer.retrieve` reads it:
only `id` and `source` are inspected (`name`, `description`, `tags` are
passed through to the model only). -/
structure MemorySummary where
  id : String
  source : Option String := none
deriving DecidableEq

/-- Long-term fetch branch of `Memoryer.retrieve`: the `read_memory` tool
call either yields the text of the memory (rendered as a delimited block)
or throws, in which case the loop logs and pushes nothing. -/
def Memoryer.fetchLong (readLong : String → Except String String) (id : String) : Option String :=
  match readLong id with
  | .ok text => some ("--- Memory ID: " ++ id ++ " ---\n" ++ text ++ "\n--- End of Memory ---")
  | .error _ => none

/-- One iteration of the fetch loop of `Memoryer.retrieve`: a selected id
contributes at most one content block.  `shortReader` is `some` when a
`MemoryManager` with a `readShortTermMemory` function was supplied. -/
def Memoryer.fetchOne (summaries : List MemorySummary)
    (shortReader : Option (String → Option String))
    (readLong : String → Except String String) (id : String) : Option String :=
  match summaries.find? (fun s => s.id == id), shortReader with
  | some s, some rd =>
    if s.source = some "short_term" then
      match rd id with
      | some content =>
        some ("--- Short-Term Memory ID: " ++ id ++ " ---\n" ++ content ++ "\n--- End of Memory ---")
      | none => none
    else Memoryer.fetchLong readLong id
  | _, _ => Memoryer.fetchLong readLong id

/-- The content blocks collected by the fetch loop of `Memoryer.retrieve`,
one pass over the selected ids in order. -/
def Memoryer.fetchContents (targetIds : List String) (summaries : List MemorySummary)
    (shortReader : Option (String → Option String))
    (readLong : String → Except String String) : List String :=
  targetIds.filterMap (Memoryer.fetchOne summaries shortReader readLong)

/-- `Memoryer.retrieve` (memoryer.ts): two-stage long-term retrieval.
`selection` embeds the selector round trip (model call plus JSON
extraction of `parsed.ids`): `.error` when that try-block threw, `.ok`
with the id list otherwise (a reply without an `ids` array yields `[]`). -/
def Memoryer.retrieve (userQuery : String) (summaries : List MemorySummary)
    (selection : Except String (List String))
    (shortReader : Option (String → Option String))
    (readLong : String → Except String String) : String :=
  if summaries.isEmpty then "没有找到任何相关记忆摘要。"
  else
    match selection with
    | .error _ => "记忆分析失败，无法提取详细内容。"
    | .ok targetIds =>
      if targetIds.isEmpty then "根据摘要判断，没有找到与查询足够相关的详细记忆。"
      else
        let contents := Memoryer.fetchContents targetIds summaries shortReader readLong
        if contents.isEmpty then "尝试读取选定记忆时失败。"
        else "以下是根据您的查询检索到的详细记忆内容：\n\n" ++ String.intercalate "\n\n" contents

/-- Modelled from the spec: the memory-stream `MemoryUnit` (spec section 3;
also docs/design/short_term_memory_design.md).  The implementation of the
memory-stream MemoryManager is not under src/ (agent.ts calls its
`retrieveContext`/`summarize*` methods, but the context-manager.ts in src
is an earlier revision without them). -/
structure MemoryUnit where
  id : String
  taskId : String
  turnId : Nat
  role : String
  summary : String
  content : String
deriving DecidableEq

/-- Modelled from the spec: `retrieve(query, taskId)` of the memory-stream
MemoryManager (spec section 4.1), which is missing from src/.  It filters
the stream to the task and returns the empty string when the filtered
stream is empty; otherwise it asks the selector model for relevant ids
(`selector` embeds that round trip: `.error` for a call failure or a bad
reply shape), silently drops unresolvable ids, and concatenates the full
content of the matched units as delimited blocks.  Any selector failure
degrades to the empty string; the block format itself is unspecified by
the spec. -/
def MemoryManager.retrieve (query : String) (taskId : String) (stream : List MemoryUnit)
    (selector : Except String (List String)) : String :=
  let filtered := stream.filter (fun u => u.taskId == taskId)
  if filtered.isEmpty then ""
  else
    match selector with
    | .error _ => ""
    | .ok ids =>
      let units := ids.filterMap (fun i => filtered.find? (fun u => u.id == i))
      String.intercalate "\n\n" (units.map (fun u =>
        "--- Memory (Turn " ++ toString u.turnId ++ ", " ++ u.role ++ ") ---\n" ++
          u.content ++ "\n--- End of Memory ---"))

/-- Outcome of `JSON.parse(toolCall.function.arguments)`. -/
inductive ArgsParse where
  | ok (args : JArgs)
  | bad
deriving DecidableEq

/-- A model-issued tool call. -/
structure ToolCall where
  id : String
  name : String
  args : ArgsParse
deriving DecidableEq

/-- A tool-result message pushed into the histories. -/
structure ToolMsg where
  tool_call_id : String
  content : String
deriving DecidableEq

/-- External world of `executeTools`: which tool names the provider map
registers, the provider round trip for a registered tool (this subsumes
the `search_memories`/`read_skill` interceptions, which only change how
the final content text is derived from provider calls), and the
best-effort memory summarizer (`none` when it failed, in which case no
digest is pushed). -/
structure Env where
  registered : String → Bool
  mcp : String → JArgs → Except String String
  summ : String → Option String

/-- The per-chat mutable state that the turn loop threads: the two
built-in stores plus the clock standing for `Date.now()`. -/
structure AgentState where
  scratch : SStore
  rs : RStore
  clock : Nat

/-- One iteration of the tool-call loop of `Agent.executeTools`
(agent.ts): returns the successor state, the single tool-result message
of this call, and the digests pushed onto `toolSummaries`. -/
def Agent.execOne (env : Env) (taskId : String) (call : ToolCall) (st : AgentState) :
    AgentState × ToolMsg × List String :=
  match call.args with
  | .bad => (st, ⟨call.id, "错误：提供的 JSON 参数无效。"⟩, [])
  | .ok args =>
    if call.name = "manage_scratchpad" then
      match ScratchpadManager.handleToolCall taskId args st.clock st.scratch with
      | (s2, .ok out) =>
        ({ st with scratch := s2, clock := st.clock + 1 }, ⟨call.id, out⟩,
         ["Tool " ++ call.name ++ " output: " ++ out])
      | (s2, .error e) =>
        ({ st with scratch := s2, clock := st.clock + 1 },
         ⟨call.id, "更新白板时出错: " ++ e⟩, [])
    else if call.name = "update_running_summary" then
      match RunningSummaryManager.handleToolCall taskId args st.clock st.rs with
      | (r2, .ok out) =>
        ({ st with rs := r2, clock := st.clock + 1 }, ⟨call.id, out⟩,
         ["Tool " ++ call.name ++ " output: " ++ out])
      | (r2, .error e) =>
        ({ st with rs := r2, clock := st.clock + 1 },
         ⟨call.id, "更新进度摘要时出错: " ++ e⟩, [])
    else if env.registered call.name then
      match env.mcp call.name args with
      | .ok text =>
        (st, ⟨call.id, if text = "" then "(工具执行成功，无文本输出)" else text⟩,
         match env.summ text with
         | some s => ["Tool " ++ call.name ++ " output: " ++ s]
         | none => [])
      | .error e =>
        (st, ⟨call.id, "执行工具出错: " ++ e⟩, [])
    else
      (st, ⟨call.id, "错误：未找到工具 " ++ call.name ++ "。"⟩, [])

/-- `Agent.executeTools`: runs the issued calls strictly in order, each
contributing exactly one tool-result message. -/
def Agent.executeTools (env : Env) (taskId : String) :
    List ToolCall → AgentState → AgentState × List ToolMsg × List String
  | [], st => (st, [], [])
  | c :: cs, st =>
    let r := Agent.execOne env taskId c st
    let rest := Agent.executeTools env taskId cs r.1
    (rest.1, r.2.1 :: rest.2.1, r.2.2 ++ rest.2.2)

/-- An assistant reply: literal text and/or tool calls. -/
structure ModelResponse where
  content : Option String
  tool_calls : List ToolCall
deriving DecidableEq

/-- The turn loop of `Agent.chat` (agent.ts): `fuel` is the number of
remaining turns (starting at `MAX_TURNS`), `turns` the number already
executed.  Each iteration first rebuilds the prompt: when a plan with
steps exists, the progress panel renders the running summary OUTSIDE any
try/catch, so that the exception of that render propagates out of `chat`.  Then the
model is called (a transport failure propagates), and either the reply is
tool-call-free (its text is the final answer) or the calls are executed
and the loop continues.  The result pairs the returned `finalAnswer` with
the final value of the local `turnCount`. -/
def Agent.turnLoop (model : Nat → Except String ModelResponse) (env : Env) (taskId : String)
    (hasPlan : Bool) : Nat → Nat → AgentState → Except String (String × Nat)
  | 0, turns, _ => .ok ("", turns)
  | fuel + 1, turns, st =>
    match (if hasPlan then (RunningSummaryManager.getFormattedContent taskId st.rs).map (fun _ => ())
           else Except.ok ()) with
    | .error e => .error e
    | .ok _ =>
      match model turns with
      | .error e => .error e
      | .ok resp =>
        if resp.tool_calls.isEmpty then .ok (resp.content.getD "", turns + 1)
        else
          let r := Agent.executeTools env taskId resp.tool_calls st
          Agent.turnLoop model env taskId hasPlan fuel (turns + 1) r.1

/-- The turn cap of `Agent.chat`. -/
def Agent.MAX_TURNS : Nat := 15

/-- `Agent.chat`, from the start of the execution phase: `hasPlan` is the
outcome of the (exception-safe) planning phase, `model` the assistant
round trip per executed turn, and the stores start empty.  `finalAnswer`
is initialised to the empty string and only ever assigned by a
tool-call-free reply. -/
def Agent.chat (model : Nat → Except String ModelResponse) (env : Env) (taskId : String)
    (hasPlan : Bool) : Except String (String × Nat) :=
  Agent.turnLoop model env taskId hasPlan Agent.MAX_TURNS 0 ⟨[], [], 0⟩

/-! ## Helper lemmas about the JS map embedding -/

theorem jsGet_jsSet_self {β : Type} (m : List (String × β)) (k : String) (v : β) :
    jsGet (jsSet m k v) k = some v := by
  induction m with
  | nil => simp [jsGet, jsSet]
  | cons p m ih =>
    by_cases h : p.1 = k
    · simp [jsGet, jsSet, h]
    · simp [jsGet, jsSet, h, ih]

theorem jsGet_jsSet_ne {β : Type} (m : List (String × β)) (k k2 : String) (v : β)
    (h : k ≠ k2) : jsGet (jsSet m k v) k2 = jsGet m k2 := by
  induction m with
  | nil => simp [jsGet, jsSet, h]
  | cons p m ih =>
    by_cases hp : p.1 = k
    · simp [jsGet, jsSet, hp, h]
    · by_cases hp2 : p.1 = k2
      · simp [jsGet, jsSet, hp, hp2, Ne.symm h]
      · simp [jsGet, jsSet, hp, hp2, ih]

theorem mem_jsSet {β : Type} (m : List (String × β)) (k : String) (v : β)
    (p : String × β) (hp : p ∈ jsSet m k v) : p = (k, v) ∨ p ∈ m := by
  induction m with
  | nil => simpa [jsSet] using hp
  | cons q m ih =>
    by_cases h : q.1 = k
    · simp only [jsSet, h, if_pos rfl] at hp
      rcases List.mem_cons.mp hp with h1 | h1
      · exact Or.inl h1
      · exact Or.inr (List.mem_cons_of_mem _ h1)
    · simp only [jsSet, h, if_neg h] at hp
      rcases List.mem_cons.mp hp with h1 | h1
      · exact Or.inr (h1 ▸ List.mem_cons_self _ _)
      · rcases ih h1 with h2 | h2
        · exact Or.inl h2
        · exact Or.inr (List.mem_cons_of_mem _ h2)

theorem self_mem_jsSet {β : Type} (m : List (String × β)) (k : String) (v : β) :
    (k, v) ∈ jsSet m k v := by
  induction m with
  | nil => simp [jsSet]
  | cons p m ih =>
    by_cases h : p.1 = k
    · simp [jsSet, h]
    · simp only [jsSet, if_neg h]
      exact List.mem_cons_of_mem _ ih

theorem mem_jsDelete {β : Type} (m : List (String × β)) (k : String) (p : String × β) :
    p ∈ jsDelete m k ↔ p ∈ m ∧ p.1 ≠ k := by
  simp [jsDelete, List.mem_filter]

theorem jsDelete_eq_nil {β : Type} (m : List (String × β)) (k : String)
    (h : ∀ p ∈ m, p.1 = k) : jsDelete m k = [] := by
  simp only [jsDelete, List.filter_eq_nil_iff]
  intro p hp
  simp [h p hp]

theorem jsGet_mem {β : Type} (m : List (String × β)) (k : String) (v : β)
    (h : jsGet m k = some v) : (k, v) ∈ m := by
  induction m with
  | nil => simp [jsGet] at h
  | cons p m ih =>
    by_cases hp : p.1 = k
    · simp only [jsGet, if_pos hp] at h
      cases h
      cases p with
      | mk a b =>
        simp only at hp
        subst hp
        exact List.mem_cons_self _ _
    · simp only [jsGet, if_neg hp] at h
      exact List.mem_cons_of_mem _ (ih h)

/-- The scratchpad render of one task depends on the store only through
the entry list of that task. -/
theorem scratch_render_congr (taskId : String) (st st2 : SStore)
    (h : ScratchpadManager.getTaskStore st taskId = ScratchpadManager.getTaskStore st2 taskId) :
    ScratchpadManager.getFormattedContent taskId st =
      ScratchpadManager.getFormattedContent taskId st2 := by
  simp [ScratchpadManager.getFormattedContent, ScratchpadManager.renderLines,
    ScratchpadManager.sortedEntries, h]

/-! ## C7: scratchpad render -/

/-- C7: for every task id, `getFormattedContent` returns the empty string
when the task has no entries; otherwise it returns the fixed-format
bulleted block (header plus one line per entry), where the lines are the
entries of the task sorted by timestamp — in particular a permutation of the
stored entries, non-decreasing in timestamp, and equal to the insertion
order whenever the stored timestamps are already non-decreasing
(chronological insertion order). -/
theorem scratchpad_render_spec (st : SStore) (taskId : String) :
    (ScratchpadManager.getTaskStore st taskId = [] →
      ScratchpadManager.getFormattedContent taskId st = "") ∧
    (ScratchpadManager.getTaskStore st taskId ≠ [] →
      ScratchpadManager.getFormattedContent taskId st =
        "【全局任务白板 (Scratchpad)】\n(用于存储跨步骤的关键信息、中间结果或变量)\n" ++
          String.intercalate "\n" (ScratchpadManager.renderLines taskId st)) ∧
    (ScratchpadManager.sortedEntries taskId st).Pairwise
      (fun a b => a.timestamp ≤ b.timestamp) ∧
    (ScratchpadManager.sortedEntries taskId st).Perm
      ((ScratchpadManager.getTaskStore st taskId).map (fun p => p.2)) ∧
    (((ScratchpadManager.getTaskStore st taskId).map (fun p => p.2)).Pairwise
        (fun a b => a.timestamp ≤ b.timestamp) →
      ScratchpadManager.sortedEntries taskId st =
        (ScratchpadManager.getTaskStore st taskId).map (fun p => p.2)) := by
  refine ⟨?_, ?_, ?_, ?_, ?_⟩
  · intro h
    simp [ScratchpadManager.getFormattedContent, h]
  · intro h
    simp [ScratchpadManager.getFormattedContent, List.isEmpty_iff, h]
  · have hs := @List.sorted_mergeSort ScratchpadEntry
      (fun a b => decide (a.timestamp ≤ b.timestamp))
      (fun a b c hab hbc => by
        simp only [decide_eq_true_eq] at hab hbc ⊢
        exact le_trans hab hbc)
      (fun a b => by
        simp only [Bool.or_eq_true, decide_eq_true_eq]
        exact Nat.le_total a.timestamp b.timestamp)
      ((ScratchpadManager.getTaskStore st taskId).map (fun p => p.2))
    exact List.Pairwise.imp (by simp) hs
  · exact List.mergeSort_perm _ _
  · intro h
    exact List.mergeSort_of_sorted (List.Pairwise.imp (by simp) h)

/-- C7 witness: a task with two entries whose timestamps are out of
insertion order renders as the header plus the timestamp-sorted lines. -/
theorem scratchpad_render_spec_witness :
    (ScratchpadManager.getTaskStore
        [("t", [("a", ⟨"a", "1", 5⟩), ("b", ⟨"b", "2", 3⟩)])] "t" ≠ []) ∧
    ScratchpadManager.getFormattedContent "t"
        [("t", [("a", ⟨"a", "1", 5⟩), ("b", ⟨"b", "2", 3⟩)])] =
      "【全局任务白板 (Scratchpad)】\n(用于存储跨步骤的关键信息、中间结果或变量)\n" ++
        String.intercalate "\n" (ScratchpadManager.renderLines "t"
          [("t", [("a", ⟨"a", "1", 5⟩), ("b", ⟨"b", "2", 3⟩)])]) :=
  ⟨by decide, (scratchpad_render_spec
    [("t", [("a", ⟨"a", "1", 5⟩), ("b", ⟨"b", "2", 3⟩)])] "t").2.1 (by decide)⟩

/-! ## C5: scratchpad round trip -/

/-- C5: for every task id, key and value (over any store whose entries
record their own key, as every store reachable through `update` does),
`update(k,v)` followed by `render` surfaces the line for the pair `k:v`
verbatim among the rendered bullet lines; a subsequent `delete(k)` leaves
no entry with key `k` in the render, and when `k` was the only key of the
task the render afterwards is the empty string. -/
theorem scratchpad_roundtrip (st : SStore) (taskId k v : String) (t : Nat)
    (hwf : ∀ p ∈ ScratchpadManager.getTaskStore st taskId, p.2.key = p.1) :
    scratchLine ⟨k, v, t⟩ ∈
      ScratchpadManager.renderLines taskId (ScratchpadManager.update taskId k v t st) ∧
    (∀ e ∈ ScratchpadManager.sortedEntries taskId
        (ScratchpadManager.delete taskId k (ScratchpadManager.update taskId k v t st)),
      e.key ≠ k) ∧
    ((∀ p ∈ ScratchpadManager.getTaskStore st taskId, p.1 = k) →
      ScratchpadManager.getFormattedContent taskId
        (ScratchpadManager.delete taskId k (ScratchpadManager.update taskId k v t st)) = "") := by
  have hstore1 : (jsGet (ScratchpadManager.update taskId k v t st) taskId).getD [] =
      jsSet ((jsGet st taskId).getD []) k ⟨k, v, t⟩ := by
    simp [ScratchpadManager.update, ScratchpadManager.getTaskStore, jsGet_jsSet_self]
  have hstore2 : (jsGet (ScratchpadManager.delete taskId k
        (ScratchpadManager.update taskId k v t st)) taskId).getD [] =
      jsDelete (jsSet ((jsGet st taskId).getD []) k ⟨k, v, t⟩) k := by
    simp [ScratchpadManager.delete, ScratchpadManager.getTaskStore, jsGet_jsSet_self, hstore1]
  refine ⟨?_, ?_, ?_⟩
  · simp only [ScratchpadManager.renderLines, ScratchpadManager.sortedEntries,
      ScratchpadManager.getTaskStore, hstore1]
    refine List.mem_map_of_mem _ ?_
    rw [List.mem_mergeSort]
    exact List.mem_map_of_mem _ (self_mem_jsSet _ _ _)
  · intro e he
    simp only [ScratchpadManager.sortedEntries, ScratchpadManager.getTaskStore, hstore2,
      List.mem_mergeSort] at he
    rcases List.mem_map.mp he with ⟨p, hp, hpe⟩
    rcases (mem_jsDelete _ _ _).mp hp with ⟨hpmem, hpk⟩
    rcases mem_jsSet _ _ _ _ hpmem with h1 | h1
    · exact absurd (by simp [h1]) hpk
    · intro hek
      exact hpk (by rw [← hwf p h1, hpe, hek])
  · intro hall
    have hnil : jsDelete (jsSet ((jsGet st taskId).getD []) k ⟨k, v, t⟩) k = [] := by
      refine jsDelete_eq_nil _ _ ?_
      intro p hp
      rcases mem_jsSet _ _ _ _ hp with h1 | h1
      · simp [h1]
      · exact hall p h1
    simp [ScratchpadManager.getFormattedContent, ScratchpadManager.getTaskStore, hstore2, hnil]

/-- C5 witness: the spec scenario on the empty store — update of
`target_path` to `/tmp/x`, then delete, leaves the render empty, and in
between the updated pair is surfaced verbatim. -/
theorem scratchpad_roundtrip_witness :
    scratchLine ⟨"target_path", "/tmp/x", 1⟩ ∈
      ScratchpadManager.renderLines "t" (ScratchpadManager.update "t" "target_path" "/tmp/x" 1 []) ∧
    ScratchpadManager.getFormattedContent "t"
      (ScratchpadManager.delete "t" "target_path"
        (ScratchpadManager.update "t" "target_path" "/tmp/x" 1 [])) = "" := by
  have h := scratchpad_roundtrip [] "t" "target_path" "/tmp/x" 1 (by simp [ScratchpadManager.getTaskStore, jsGet])
  exact ⟨h.1, h.2.2 (by simp [ScratchpadManager.getTaskStore, jsGet])⟩

/-! ## C9: task-id isolation of the per-task stores -/

/-- C9: for any two distinct task ids `A` and `B`, a scratchpad update or
delete under `A`, or a running-summary update under `A`, leaves the
rendered content of `B` in both stores unchanged — task id is the sole
partition key of the process-wide maps. -/
theorem task_isolation (A B k v : String) (t : Nat) (sst : SStore) (rst : RStore)
    (args : JArgs) (hne : A ≠ B) :
    ScratchpadManager.getFormattedContent B (ScratchpadManager.update A k v t sst) =
      ScratchpadManager.getFormattedContent B sst ∧
    ScratchpadManager.getFormattedContent B (ScratchpadManager.delete A k sst) =
      ScratchpadManager.getFormattedContent B sst ∧
    RunningSummaryManager.getFormattedContent B (RunningSummaryManager.update A args t rst).1 =
      RunningSummaryManager.getFormattedContent B rst := by
  refine ⟨?_, ?_, ?_⟩
  · refine scratch_render_congr B _ _ ?_
    simp [ScratchpadManager.getTaskStore, ScratchpadManager.update, jsGet_jsSet_ne _ _ _ _ hne]
  · refine scratch_render_congr B _ _ ?_
    simp [ScratchpadManager.getTaskStore, ScratchpadManager.delete, jsGet_jsSet_ne _ _ _ _ hne]
  · simp [RunningSummaryManager.update, RunningSummaryManager.getFormattedContent,
      jsGet_jsSet_ne _ _ _ _ hne]

/-- C9 witness: at distinct concrete task ids, operations under task `a`
leave the renders of task `b` unchanged. -/
theorem task_isolation_witness :
    ScratchpadManager.getFormattedContent "b"
        (ScratchpadManager.update "a" "k" "v" 1 [("b", [("x", ⟨"x", "1", 0⟩)])]) =
      ScratchpadManager.getFormattedContent "b" [("b", [("x", ⟨"x", "1", 0⟩)])] ∧
    RunningSummaryManager.getFormattedContent "b"
        (RunningSummaryManager.update "a" { doing := some "d" } 1
          [("b", (⟨.arr [], "", "", "", 0⟩ : RunningSummary))]).1 =
      RunningSummaryManager.getFormattedContent "b"
        [("b", (⟨.arr [], "", "", "", 0⟩ : RunningSummary))] := by
  have h := task_isolation "a" "b" "k" "v" 1 [("b", [("x", ⟨"x", "1", 0⟩)])]
    [("b", (⟨.arr [], "", "", "", 0⟩ : RunningSummary))] { doing := some "d" } (by decide)
  exact ⟨h.1, h.2.2⟩

/-! ## C3 and C10: running-summary update semantics -/

/-- C3 counterexample: two different first calls followed by the same
second call (which supplies only `doing` and `next`) leave different
`blockers` and `done` values — so an `update_running_summary` call does
NOT overwrite `blockers` unconditionally, nor replace `done` when no
array is supplied: fields absent from the call retain the earlier
values. -/
theorem rs_update_not_unconditional :
    ((jsGet (RunningSummaryManager.update "t" { doing := some "d2", next := some "n2" } 5
        (RunningSummaryManager.update "t"
          { doing := some "d1", next := some "n1",
            done := some (.arr ["a"]), blockers := some "B" } 3 []).1).1 "t").map
      RunningSummary.blockers = some "B") ∧
    ((jsGet (RunningSummaryManager.update "t" { doing := some "d2", next := some "n2" } 5
        (RunningSummaryManager.update "t"
          { doing := some "d1", next := some "n1",
            done := some (.arr ["c"]), blockers := some "C" } 3 []).1).1 "t").map
      RunningSummary.blockers = some "C") ∧
    ((jsGet (RunningSummaryManager.update "t" { doing := some "d2", next := some "n2" } 5
        (RunningSummaryManager.update "t"
          { doing := some "d1", next := some "n1",
            done := some (.arr ["a"]), blockers := some "B" } 3 []).1).1 "t").map
      RunningSummary.done = some (.arr ["a"])) ∧
    ("B" : String) ≠ "C" := by
  refine ⟨?_, ?_, ?_, by decide⟩ <;> rfl

/-- C3 amended: an `update_running_summary` call overwrites exactly the
fields present in its arguments (each supplied field replaces the stored
field entirely — in particular a supplied `done` array replaces, not
merges, the previous list), refreshes the timestamp, and retains the
stored value of every absent field; two successive updates whose second
supplies `doing` and a `done` array leave exactly the `doing` and `done`
values supplied by that second call. -/
theorem rs_update_field_merge (taskId : String) (st : RStore) (args a1 a2 : JArgs)
    (t t1 t2 : Nat) (d2 : String) (l2 : List String) :
    (∃ r, jsGet (RunningSummaryManager.update taskId args t st).1 taskId = some r ∧
      r.timestamp = t ∧
      (∀ x, args.doing = some x → r.doing = x) ∧
      (∀ x, args.next = some x → r.next = x) ∧
      (∀ x, args.blockers = some x → r.blockers = x) ∧
      (∀ x, args.done = some x → r.done = x) ∧
      (args.doing = none → r.doing = ((jsGet st taskId).map RunningSummary.doing).getD "") ∧
      (args.next = none → r.next = ((jsGet st taskId).map RunningSummary.next).getD "") ∧
      (args.blockers = none →
        r.blockers = ((jsGet st taskId).map RunningSummary.blockers).getD "") ∧
      (args.done = none →
        r.done = ((jsGet st taskId).map RunningSummary.done).getD (DoneVal.arr []))) ∧
    (a2.doing = some d2 → a2.done = some (DoneVal.arr l2) →
      ∃ r, jsGet (RunningSummaryManager.update taskId a2 t2
          (RunningSummaryManager.update taskId a1 t1 st).1).1 taskId = some r ∧
        r.doing = d2 ∧ r.done = DoneVal.arr l2) := by
  constructor
  · simp only [RunningSummaryManager.update, jsGet_jsSet_self]
    refine ⟨_, rfl, rfl, ?_, ?_, ?_, ?_, ?_, ?_, ?_, ?_⟩
    · intro x hx
      simp [hx]
    · intro x hx
      simp [hx]
    · intro x hx
      simp [hx]
    · intro x hx
      simp [hx]
    · intro hx
      cases h : jsGet st taskId <;> simp [hx, h]
    · intro hx
      cases h : jsGet st taskId <;> simp [hx, h]
    · intro hx
      cases h : jsGet st taskId <;> simp [hx, h]
    · intro hx
      cases h : jsGet st taskId <;> simp [hx, h]
  · intro h2d h2done
    simp only [RunningSummaryManager.update, jsGet_jsSet_self]
    exact ⟨_, rfl, by simp [h2d], by simp [h2done]⟩

/-- C3 amended witness: a concrete second call supplying `doing` and a
`done` array yields exactly those values. -/
theorem rs_update_field_merge_witness :
    ∃ r, jsGet (RunningSummaryManager.update "t"
        { doing := some "d2", next := some "n2", done := some (DoneVal.arr ["s1", "s2"]) } 5
        (RunningSummaryManager.update "t" { doing := some "d1", next := some "n1" } 3 []).1).1
        "t" = some r ∧
      r.doing = "d2" ∧ r.done = DoneVal.arr ["s1", "s2"] :=
  (rs_update_field_merge "t" [] {} { doing := some "d1", next := some "n1" }
    { doing := some "d2", next := some "n2", done := some (DoneVal.arr ["s1", "s2"]) }
    0 3 5 "d2" ["s1", "s2"]).2 rfl rfl

/-- A running-summary store is renderable when no stored `done` field is
JSON null (then `getFormattedContent` cannot throw). -/
def RStore.renderable (st : RStore) : Prop :=
  ∀ p ∈ st, p.2.done ≠ DoneVal.null

theorem renderable_getFormattedContent (taskId : String) (st : RStore)
    (h : RStore.renderable st) :
    ∃ s, RunningSummaryManager.getFormattedContent taskId st = .ok s := by
  cases hres : RunningSummaryManager.getFormattedContent taskId st with
  | ok s => exact ⟨s, rfl⟩
  | error e =>
    exfalso
    unfold RunningSummaryManager.getFormattedContent at hres
    cases hg : jsGet st taskId with
    | none => rw [hg] at hres; exact Except.noConfusion hres
    | some r =>
      rw [hg] at hres
      have hr := h _ (jsGet_mem _ _ _ hg)
      cases hd : r.done with
      | arr l => simp [hd, renderDone] at hres
      | null => exact hr hd

theorem rs_update_renderable (taskId : String) (args : JArgs) (t : Nat) (st : RStore)
    (hst : RStore.renderable st) (hdone : ∀ dv, args.done = some dv → dv ≠ DoneVal.null) :
    RStore.renderable (RunningSummaryManager.update taskId args t st).1 := by
  intro p hp
  simp only [RunningSummaryManager.update] at hp
  rcases mem_jsSet _ _ _ _ hp with h1 | h1
  · subst h1
    cases hd : args.done with
    | none =>
      cases hg : jsGet st taskId with
      | none => simp [hd, hg]
      | some r =>
        have hr := hst _ (jsGet_mem _ _ _ hg)
        simpa [hd, hg] using hr
    | some dv =>
      have := hdone dv hd
      simpa [hd] using this
  · exact hst p h1

/-- C10 counterexample: an argument object with `done` set to JSON null
(schema-violating but expressible by the model, since arguments are
`JSON.parse`d without validation) makes `handleToolCall` throw from the
render inside `update` — producing an error-kind tool result in the
orchestrator — even though the store was already mutated. -/
theorem rs_handleToolCall_null_done :
    (RunningSummaryManager.handleToolCall "t"
        { done := some DoneVal.null, doing := some "x", next := some "y" } 1 []).2 =
      Except.error "TypeError: Cannot read properties of null (reading length)" ∧
    jsGet (RunningSummaryManager.handleToolCall "t"
        { done := some DoneVal.null, doing := some "x", next := some "y" } 1 []).1 "t" =
      some ⟨DoneVal.null, "x", "y", "", 1⟩ :=
  ⟨rfl, rfl⟩

/-- C10 amended: over a renderable store, `handleToolCall` with any
argument object whose `done` field (when present) is an array — including
one missing the schema-required `doing` and `next` fields — performs the
update and returns the success string: fields absent from the arguments
retain their previously stored values while the timestamp is refreshed,
and no such argument combination produces an error-kind tool result. -/
theorem rs_handleToolCall_total (taskId : String) (args : JArgs) (t : Nat) (st : RStore)
    (hst : RStore.renderable st) (hdone : ∀ dv, args.done = some dv → dv ≠ DoneVal.null) :
    (RunningSummaryManager.handleToolCall taskId args t st).2 =
      .ok "Running Summary updated successfully." ∧
    ∃ r, jsGet (RunningSummaryManager.handleToolCall taskId args t st).1 taskId = some r ∧
      r.timestamp = t ∧
      (args.doing = none → r.doing = ((jsGet st taskId).map RunningSummary.doing).getD "") ∧
      (args.next = none → r.next = ((jsGet st taskId).map RunningSummary.next).getD "") ∧
      (args.blockers = none →
        r.blockers = ((jsGet st taskId).map RunningSummary.blockers).getD "") ∧
      (args.done = none →
        r.done = ((jsGet st taskId).map RunningSummary.done).getD (DoneVal.arr [])) := by
  have hrend := renderable_getFormattedContent taskId _
    (rs_update_renderable taskId args t st hst hdone)
  constructor
  · rcases hrend with ⟨s, hs⟩
    simp only [RunningSummaryManager.handleToolCall, RunningSummaryManager.update] at hs ⊢
    rw [hs]
    rfl
  · rcases rs_update_field_merge taskId st args {} {} t 0 0 "" [] with ⟨⟨r, hr, hts, _, _, _, _, hdoing, hnext, hblockers, hdn⟩, _⟩
    exact ⟨r, hr, hts, hdoing, hnext, hblockers, hdn⟩

/-- C10 amended witness: an argument object missing both schema-required
fields still succeeds, retaining the previously stored `doing` and
refreshing the timestamp. -/
theorem rs_handleToolCall_total_witness :
    (RunningSummaryManager.handleToolCall "t" {} 7
        [("t", ⟨DoneVal.arr ["a"], "old-doing", "old-next", "", 3⟩)]).2 =
      .ok "Running Summary updated successfully." ∧
    ∃ r, jsGet (RunningSummaryManager.handleToolCall "t" {} 7
        [("t", ⟨DoneVal.arr ["a"], "old-doing", "old-next", "", 3⟩)]).1 "t" = some r ∧
      r.timestamp = 7 ∧
      (JArgs.doing {} = none → r.doing = ((jsGet
        [("t", (⟨DoneVal.arr ["a"], "old-doing", "old-next", "", 3⟩ : RunningSummary))] "t").map
          RunningSummary.doing).getD "") := by
  have h := rs_handleToolCall_total "t" {} 7
    [("t", ⟨DoneVal.arr ["a"], "old-doing", "old-next", "", 3⟩)]
    (by intro p hp; simp at hp; simp [hp]) (by intro dv hdv; simp at hdv)
  rcases h with ⟨h1, r, hr, hts, hdoing, _, _, _⟩
  exact ⟨h1, r, hr, hts, fun hx => hdoing hx⟩

/-! ## C2: the memory-stream retrieve (spec-modelled) -/

/-- C2: `retrieve(query, taskId)` filters the stream to the task and
returns the empty string when the filtered stream is empty; a selector
failure (model-call failure or bad reply shape) also degrades to the
empty string.  The function is total (it returns a `String`, never an
exception).  Settled against the spec-modelled `MemoryManager.retrieve`,
as the memory-stream MemoryManager is not under src/. -/
theorem memoryManager_retrieve_degrades (query taskId : String) (stream : List MemoryUnit)
    (selector : Except String (List String)) :
    ((stream.filter (fun u => u.taskId == taskId)).isEmpty = true →
      MemoryManager.retrieve query taskId stream selector = "") ∧
    (∀ e, selector = .error e →
      MemoryManager.retrieve query taskId stream selector = "") := by
  constructor
  · intro h
    simp [MemoryManager.retrieve, h]
  · intro e he
    subst he
    unfold MemoryManager.retrieve
    by_cases h : (stream.filter (fun u => u.taskId == taskId)).isEmpty <;> simp [h]

/-- C2 witness: a stream whose only unit belongs to another task yields
the empty string, as does a selector failure on a non-empty filtered
stream. -/
theorem memoryManager_retrieve_degrades_witness :
    ((([⟨"m1", "other", 1, "user", "s", "c"⟩] : List MemoryUnit).filter
        (fun u => u.taskId == "t")).isEmpty = true ∧
      MemoryManager.retrieve "q" "t" [⟨"m1", "other", 1, "user", "s", "c"⟩]
        (.ok ["m1"]) = "") ∧
    ((Except.error "boom" : Except String (List String)) = .error "boom" ∧
      MemoryManager.retrieve "q" "t" [⟨"m1", "t", 1, "user", "s", "c"⟩]
        (.error "boom") = "") :=
  ⟨⟨by decide, (memoryManager_retrieve_degrades "q" "t"
      [⟨"m1", "other", 1, "user", "s", "c"⟩] (.ok ["m1"])).1 (by decide)⟩,
   ⟨rfl, (memoryManager_retrieve_degrades "q" "t"
      [⟨"m1", "t", 1, "user", "s", "c"⟩] (.error "boom")).2 "boom" rfl⟩⟩

/-! ## C8: the Memoryer block bound -/

/-- C8: for every query and summary list, when the selector model returns
the id list `ids`, the fetch loop collects at most `ids.length` full
content blocks, every collected block is the fetch result of one of the
selected ids, and `Memoryer.retrieve` renders exactly those blocks (or a
fixed fallback message when there are none). -/
theorem memoryer_block_bound (userQuery : String) (summaries : List MemorySummary)
    (ids : List String) (shortReader : Option (String → Option String))
    (readLong : String → Except String String) :
    (Memoryer.fetchContents ids summaries shortReader readLong).length ≤ ids.length ∧
    (∀ c ∈ Memoryer.fetchContents ids summaries shortReader readLong,
      ∃ i ∈ ids, Memoryer.fetchOne summaries shortReader readLong i = some c) ∧
    (Memoryer.retrieve userQuery summaries (.ok ids) shortReader readLong =
      if summaries.isEmpty then "没有找到任何相关记忆摘要。"
      else if ids.isEmpty then "根据摘要判断，没有找到与查询足够相关的详细记忆。"
      else if (Memoryer.fetchContents ids summaries shortReader readLong).isEmpty then
        "尝试读取选定记忆时失败。"
      else "以下是根据您的查询检索到的详细记忆内容：\n\n" ++
        String.intercalate "\n\n" (Memoryer.fetchContents ids summaries shortReader readLong)) := by
  refine ⟨List.length_filterMap_le _ _, ?_, ?_⟩
  · intro c hc
    rcases List.mem_filterMap.mp hc with ⟨i, hi, hio⟩
    exact ⟨i, hi, hio⟩
  · rfl

/-- C8 witness: two selected ids where one read fails yield a single
block, matching the bound. -/
theorem memoryer_block_bound_witness :
    (Memoryer.fetchContents ["m1", "m2"] [⟨"m1", none⟩, ⟨"m2", none⟩] none
      (fun i => if i = "m1" then .ok "content-1" else .error "read failed")).length ≤ 2 ∧
    ∀ c ∈ Memoryer.fetchContents ["m1", "m2"] [⟨"m1", none⟩, ⟨"m2", none⟩] none
      (fun i => if i = "m1" then .ok "content-1" else .error "read failed"),
      ∃ i ∈ (["m1", "m2"] : List String),
        Memoryer.fetchOne [⟨"m1", none⟩, ⟨"m2", none⟩] none
          (fun j => if j = "m1" then .ok "content-1" else .error "read failed") i = some c := by
  have h := memoryer_block_bound "q" [⟨"m1", none⟩, ⟨"m2", none⟩] ["m1", "m2"] none
    (fun i => if i = "m1" then .ok "content-1" else .error "read failed")
  exact ⟨h.1, h.2.1⟩

/-! ## C6: per-call error isolation in executeTools -/

/-- Each iteration of the tool loop produces exactly one tool-result
message, carrying the id of that call. -/
theorem execOne_msg_id (env : Env) (taskId : String) (c : ToolCall) (st : AgentState) :
    (Agent.execOne env taskId c st).2.1.tool_call_id = c.id := by
  unfold Agent.execOne
  cases c.args with
  | bad => rfl
  | ok args =>
    by_cases h1 : c.name = "manage_scratchpad"
    · rcases hh : ScratchpadManager.handleToolCall taskId args st.clock st.scratch with ⟨s2, r⟩
      cases r <;> simp [h1, hh]
    · by_cases h2 : c.name = "update_running_summary"
      · rcases hh : RunningSummaryManager.handleToolCall taskId args st.clock st.rs with ⟨s2, r⟩
        cases r <;> simp [h1, h2, hh]
      · by_cases h3 : env.registered c.name
        · rcases hh : env.mcp c.name args with t | e
          · simp [h1, h2, h3, hh]
          · simp [h1, h2, h3, hh]
        · simp [h1, h2, h3]

/-- C6: a tool call whose arguments fail to parse as JSON contributes
exactly one error-kind result and leaves the state untouched, and the
remaining calls of the same turn execute exactly as they would have,
in their issued order; in general every call of a turn yields exactly
one result message, in the order the calls were issued. -/
theorem executeTools_parse_error_isolated (env : Env) (taskId : String) (c : ToolCall)
    (cs calls : List ToolCall) (st st0 : AgentState) :
    (c.args = .bad →
      Agent.executeTools env taskId (c :: cs) st =
        ((Agent.executeTools env taskId cs st).1,
         ⟨c.id, "错误：提供的 JSON 参数无效。"⟩ :: (Agent.executeTools env taskId cs st).2.1,
         (Agent.executeTools env taskId cs st).2.2)) ∧
    ((Agent.executeTools env taskId calls st0).2.1.map ToolMsg.tool_call_id =
      calls.map ToolCall.id) := by
  constructor
  · intro hbad
    rcases hc : c with ⟨cid, cname, cargs⟩
    simp only [hc] at hbad
    subst hbad
    simp [Agent.executeTools, Agent.execOne]
  · induction calls generalizing st0 with
    | nil => simp [Agent.executeTools]
    | cons d ds ih =>
      simp [Agent.executeTools, execOne_msg_id, ih]

/-- C6 witness: a turn with an unparsable first call and a well-formed
second call yields the parse-error result followed by the result of the
second call, executed on the untouched state. -/
theorem executeTools_parse_error_isolated_witness :
    Agent.executeTools ⟨fun _ => false, fun _ _ => .error "unused", fun _ => none⟩ "t"
        [⟨"c1", "execute_code", .bad⟩,
         ⟨"c2", "manage_scratchpad",
          .ok { action := some "update", key := some "k", value := some "v" }⟩]
        ⟨[], [], 0⟩ =
      ((Agent.executeTools ⟨fun _ => false, fun _ _ => .error "unused", fun _ => none⟩ "t"
          [⟨"c2", "manage_scratchpad",
            .ok { action := some "update", key := some "k", value := some "v" }⟩]
          ⟨[], [], 0⟩).1,
       ⟨"c1", "错误：提供的 JSON 参数无效。"⟩ ::
         (Agent.executeTools ⟨fun _ => false, fun _ _ => .error "unused", fun _ => none⟩ "t"
            [⟨"c2", "manage_scratchpad",
              .ok { action := some "update", key := some "k", value := some "v" }⟩]
            ⟨[], [], 0⟩).2.1,
       (Agent.executeTools ⟨fun _ => false, fun _ _ => .error "unused", fun _ => none⟩ "t"
          [⟨"c2", "manage_scratchpad",
            .ok { action := some "update", key := some "k", value := some "v" }⟩]
          ⟨[], [], 0⟩).2.2) ∧
    (Agent.executeTools ⟨fun _ => false, fun _ _ => .error "unused", fun _ => none⟩ "t"
        [⟨"c1", "execute_code", .bad⟩,
         ⟨"c2", "manage_scratchpad",
          .ok { action := some "update", key := some "k", value := some "v" }⟩]
        ⟨[], [], 0⟩).2.1.map ToolMsg.tool_call_id = ["c1", "c2"] := by
  have h := executeTools_parse_error_isolated
    ⟨fun _ => false, fun _ _ => .error "unused", fun _ => none⟩ "t"
    ⟨"c1", "execute_code", .bad⟩
    [⟨"c2", "manage_scratchpad",
      .ok { action := some "update", key := some "k", value := some "v" }⟩]
    [⟨"c1", "execute_code", .bad⟩,
     ⟨"c2", "manage_scratchpad",
      .ok { action := some "update", key := some "k", value := some "v" }⟩]
    ⟨[], [], 0⟩ ⟨[], [], 0⟩
  exact ⟨h.1 rfl, h.2⟩

/-! ## C1 and C4: the turn loop at the cap -/

/-- A tool call whose parsed arguments, if any, do not set `done` to JSON
null — the condition under which the running-summary store stays
renderable. -/
def ToolCall.doneOk (c : ToolCall) : Prop :=
  ∀ a, c.args = ArgsParse.ok a → ∀ dv, a.done = some dv → dv ≠ DoneVal.null

/-- A tool call whose name resolves to a handler: one of the two
built-ins, or a provider-registered tool. -/
def ToolCall.resolvable (env : Env) (c : ToolCall) : Prop :=
  c.name = "manage_scratchpad" ∨ c.name = "update_running_summary" ∨
    env.registered c.name = true

theorem execOne_renderable (env : Env) (taskId : String) (c : ToolCall) (st : AgentState)
    (hst : RStore.renderable st.rs) (hc : ToolCall.doneOk c) :
    RStore.renderable ((Agent.execOne env taskId c st).1).rs := by
  unfold Agent.execOne
  cases ha : c.args with
  | bad => simpa using hst
  | ok args =>
    have hargs := hc args ha
    by_cases h1 : c.name = "manage_scratchpad"
    · rcases hh : ScratchpadManager.handleToolCall taskId args st.clock st.scratch with ⟨s2, r⟩
      cases r <;> simp [h1, hh] <;> exact hst
    · by_cases h2 : c.name = "update_running_summary"
      · rcases hh : RunningSummaryManager.handleToolCall taskId args st.clock st.rs with ⟨s2, r⟩
        have hs2 : s2 = (RunningSummaryManager.update taskId args st.clock st.rs).1 := by
          have := congrArg Prod.fst hh
          simpa [RunningSummaryManager.handleToolCall] using this.symm
        have hren := rs_update_renderable taskId args st.clock st.rs hst hargs
        cases r <;> simp [h1, h2, hh] <;> exact hs2 ▸ hren
      · by_cases h3 : env.registered c.name
        · rcases hh : env.mcp c.name args with t | e
          · simp [h1, h2, h3, hh]
            exact hst
          · simp [h1, h2, h3, hh]
            exact hst
        · simp [h1, h2, h3]
          exact hst

theorem executeTools_renderable (env : Env) (taskId : String) (calls : List ToolCall)
    (st : AgentState) (hst : RStore.renderable st.rs)
    (hcalls : ∀ c ∈ calls, ToolCall.doneOk c) :
    RStore.renderable ((Agent.executeTools env taskId calls st).1).rs := by
  induction calls generalizing st with
  | nil => simpa [Agent.executeTools] using hst
  | cons c cs ih =>
    simp only [Agent.executeTools]
    exact ih _ (execOne_renderable env taskId c st hst (hcalls c (List.mem_cons_self _ _)))
      (fun d hd => hcalls d (List.mem_cons_of_mem _ hd))

/-- When every model reply within the cap carries at least one tool call
whose arguments keep the running-summary store renderable, the turn loop
runs down its whole fuel and returns the never-assigned `finalAnswer`
(the empty string) together with a turn count equal to the cap. -/
theorem turnLoop_cap (model : Nat → Except String ModelResponse) (env : Env) (taskId : String)
    (hasPlan : Bool) :
    ∀ (fuel turns : Nat) (st : AgentState), turns + fuel = Agent.MAX_TURNS →
    RStore.renderable st.rs →
    (∀ n, n < Agent.MAX_TURNS → ∃ r, model n = .ok r ∧ r.tool_calls ≠ [] ∧
      ∀ c ∈ r.tool_calls, ToolCall.doneOk c) →
    Agent.turnLoop model env taskId hasPlan fuel turns st = .ok ("", Agent.MAX_TURNS) := by
  intro fuel
  induction fuel with
  | zero =>
    intro turns st htot _ _
    have : turns = Agent.MAX_TURNS := by omega
    simp [Agent.turnLoop, this]
  | succ fuel ih =>
    intro turns st htot hrend hmodel
    have hturn : turns < Agent.MAX_TURNS := by omega
    rcases hmodel turns hturn with ⟨r, hm, hcalls, hok⟩
    rcases renderable_getFormattedContent taskId st.rs hrend with ⟨s, hs⟩
    have hie : r.tool_calls.isEmpty = false := by
      cases h : r.tool_calls with
      | nil => exact absurd h hcalls
      | cons a l => rfl
    simp only [Agent.turnLoop, hs, hm, hie]
    cases hasPlan <;>
      simp only [Bool.false_eq_true, if_true, if_false, Except.map_ok] <;>
      exact ih (turns + 1) _ (by omega)
        (executeTools_renderable env taskId r.tool_calls st hrend hok) hmodel

/-- C1 counterexample: a stub whose every reply carries the literal text
"partial answer" together with a resolvable tool call drives the loop to
the cap, yet `chat` returns the empty string — not the text of the last
assistant message. -/
theorem chat_cap_ignores_assistant_text :
    Agent.chat (fun _ => .ok ⟨some "partial answer",
        [⟨"c1", "manage_scratchpad",
          .ok { action := some "update", key := some "k", value := some "v" }⟩]⟩)
      ⟨fun _ => false, fun _ _ => .error "unused", fun _ => none⟩ "t" false =
      .ok ("", 15) ∧
    ([⟨"c1", "manage_scratchpad",
        .ok { action := some "update", key := some "k", value := some "v" }⟩] :
      List ToolCall) ≠ [] ∧
    ("partial answer" : String) ≠ "" :=
  ⟨rfl, by decide, by decide⟩

/-- C1 amended: when the loop exhausts the turn cap without a
tool-call-free reply (every reply within the cap carries tool calls, none
of which breaks the running-summary render), `chat` returns the empty
string — `finalAnswer` is never assigned on this path — and does not
throw. -/
theorem chat_cap_returns_empty_string (model : Nat → Except String ModelResponse) (env : Env)
    (taskId : String) (hasPlan : Bool)
    (h : ∀ n, n < Agent.MAX_TURNS → ∃ r, model n = .ok r ∧ r.tool_calls ≠ [] ∧
      ∀ c ∈ r.tool_calls, ToolCall.doneOk c) :
    Agent.chat model env taskId hasPlan = .ok ("", 15) := by
  have := turnLoop_cap model env taskId hasPlan Agent.MAX_TURNS 0 ⟨[], [], 0⟩
    (by simp) (by intro p hp; exact absurd hp (List.not_mem_nil p)) h
  simpa [Agent.chat, Agent.MAX_TURNS] using this

/-- C1 amended witness: a concrete always-tool-calling stub makes `chat`
return the empty string after the cap. -/
theorem chat_cap_returns_empty_string_witness :
    Agent.chat (fun _ => .ok ⟨some "some text",
        [⟨"w1", "manage_scratchpad",
          .ok { action := some "update", key := some "w", value := some "1" }⟩]⟩)
      ⟨fun _ => false, fun _ _ => .error "unused", fun _ => none⟩ "t" false =
      .ok ("", 15) :=
  chat_cap_returns_empty_string _ _ "t" false
    (fun n _ => ⟨⟨some "some text",
        [⟨"w1", "manage_scratchpad",
          .ok { action := some "update", key := some "w", value := some "1" }⟩]⟩,
      rfl, by decide,
      by
        intro c hc a ha dv hdv
        simp at hc
        subst hc
        cases ha
        exact Option.noConfusion hdv⟩)

/-- C4 counterexample: a stub whose every reply issues a resolvable
(built-in) tool call — `update_running_summary` with `done` set to JSON
null — makes `chat` throw on the second turn: the first call stores the
null `done`, and the progress panel of the next turn renders the running
summary outside any try/catch. -/
theorem chat_throws_on_null_done :
    Agent.chat (fun _ => .ok ⟨some "ok",
        [⟨"c1", "update_running_summary",
          .ok { done := some DoneVal.null, doing := some "d", next := some "n" }⟩]⟩)
      ⟨fun _ => false, fun _ _ => .error "unused", fun _ => none⟩ "t" true =
      .error "TypeError: Cannot read properties of null (reading length)" ∧
    ([⟨"c1", "update_running_summary",
        .ok { done := some DoneVal.null, doing := some "d", next := some "n" }⟩] :
      List ToolCall) ≠ [] :=
  ⟨rfl, by decide⟩

/-- C4 amended: for a model stub whose every reply within the cap issues
at least one resolvable tool call, none of which sets `done` to JSON null
(so the progress-panel render cannot throw), `chat` terminates after
exactly the turn cap of 15 turns and returns normally. -/
theorem chat_cap_exact_turns (model : Nat → Except String ModelResponse) (env : Env)
    (taskId : String) (hasPlan : Bool)
    (h : ∀ n, n < Agent.MAX_TURNS → ∃ r, model n = .ok r ∧ r.tool_calls ≠ [] ∧
      ∀ c ∈ r.tool_calls, ToolCall.resolvable env c ∧ ToolCall.doneOk c) :
    Agent.chat model env taskId hasPlan = .ok ("", Agent.MAX_TURNS) := by
  have := turnLoop_cap model env taskId hasPlan Agent.MAX_TURNS 0 ⟨[], [], 0⟩
    (by simp) (by intro p hp; exact absurd hp (List.not_mem_nil p))
    (fun n hn => by
      rcases h n hn with ⟨r, hm, hne, hall⟩
      exact ⟨r, hm, hne, fun c hc => (hall c hc).2⟩)
  simpa [Agent.chat] using this

/-- C4 amended witness: a concrete stub issuing one resolvable built-in
call per reply terminates at exactly 15 turns with a normal return. -/
theorem chat_cap_exact_turns_witness :
    Agent.chat (fun _ => .ok ⟨none,
        [⟨"w2", "update_running_summary",
          .ok { doing := some "step", next := some "more" }⟩]⟩)
      ⟨fun _ => false, fun _ _ => .error "unused", fun _ => none⟩ "t" true =
      .ok ("", Agent.MAX_TURNS) :=
  chat_cap_exact_turns _ _ "t" true
    (fun n _ => ⟨⟨none,
        [⟨"w2", "update_running_summary",
          .ok { doing := some "step", next := some "more" }⟩]⟩,
      rfl, by decide,
      by
        intro c hc
        simp at hc
        subst hc
        refine ⟨Or.inr (Or.inl rfl), ?_⟩
        intro a ha dv hdv
        cases ha
        exact Option.noConfusion hdv⟩)
